import Mathlib

/-!
Verification development for the Kudagon Azure AI client (`src/index.ts`).

The TypeScript class `KudagonAzureAIClient` is shallowly embedded as pure
Lean functions over an explicit `ClientState` record.  Runtime JavaScript
values that may be absent (`undefined`/`null`) are modelled with `Option`;
JavaScript truthiness of a string-valued field (`if (x)`) is the predicate
`truthyS` below (absent and the empty string are falsy).  Fallible methods
return `Except String` carrying the exact `Error` message thrown by the
source; the spec's error taxonomy (ValidationError, RunError, TimeoutError,
StateError, ...) corresponds to these message families.  The remote HTTP
API, `JSON.parse`, the file system and the clock are external collaborators
and are passed in as explicit oracles (`Remote`, `parse`, `fs`, `now`);
every network request the client issues is recorded in a `Request` log so
that call-count properties can be stated.  Object identity of message
records inside `this.messages` (used by `msg === this.messages.find(...)`)
is modelled by list position.
-/

/-- JavaScript truthiness of an optional string field:
`undefined`/`null` and `""` are falsy. -/
def truthyS : Option String → Bool
  | none => false
  | some s => !(s == "")

/-- A minimal structured (JSON-like) value, the result of `JSON.parse`. -/
inductive JsonVal where
  | null : JsonVal
  | bool : Bool → JsonVal
  | num : Int → JsonVal
  | str : String → JsonVal
  | arr : List JsonVal → JsonVal
  | obj : List (String × JsonVal) → JsonVal

/-- A runtime value that is either a plain string or a structured object
(the type of `raw_file : string | object` and of staged file content). -/
inductive JsValue where
  | str : String → JsValue
  | json : JsonVal → JsValue

/-- Truthiness of an optional `string | object` value: objects are always
truthy, strings are truthy iff non-empty. -/
def truthyV : Option JsValue → Bool
  | none => false
  | some (.str s) => !(s == "")
  | some (.json _) => true

/-- A chat message as it exists at runtime: the TypeScript interface
declares `role: Role; content: string`, but `add_message` defends against
plain-JS callers, so both fields may be absent. -/
structure Message where
  role : Option String
  content : Option String
deriving DecidableEq, Repr

/-- `FileType` from the source: `"json" | "text"`. -/
inductive FileType where
  | json : FileType
  | text : FileType
deriving DecidableEq, Repr

/-- `FileConfig` from the source; all fields optional at runtime. -/
structure FileConfig where
  file_path : Option String := none
  raw_file : Option JsValue := none
  file_name : Option String := none
  file_type : Option FileType := none

/-- `GenerationOptions` from the source (all fields optional numbers). -/
structure GenerationOptions where
  max_tokens : Option Nat := none
  temperature : Option Float := none
  top_p : Option Float := none

/-- An entry of `this.files` (`InternalFile` in the source). -/
structure InternalFile where
  path : String
  type : FileType
  content : JsValue
  rawContent : JsValue

/-- An uploaded-file record produced during a run (`UploadedFile`). -/
structure UploadedFile where
  id : String
  path : String
  type : FileType

/-- The content value carried by a remote thread message
(`responseMessage.content` can be a block array, a plain string, or
absent). Each array block is modelled by its `text?.value` projection. -/
inductive MsgContent where
  | arr : List (Option String) → MsgContent
  | str : String → MsgContent
  | undef : MsgContent

/-- The message object returned by the messages endpoint
(`messages.data?.[0]`, possibly with missing fields). -/
structure RemoteMsg where
  role : Option String
  content : MsgContent

/-- The message stored inside the client's formatted completion response. -/
structure CompletionMessage where
  role : String
  content : MsgContent

/-- `CompletionChoice` from the source. -/
structure CompletionChoice where
  index : Nat
  message : CompletionMessage
  finish_reason : String

/-- `CompletionResponse` from the source (`this._lastResponse`). -/
structure CompletionResponse where
  id : String
  object : String
  created : Nat
  model : String
  choices : List CompletionChoice

/-- The whole mutable state of one `KudagonAzureAIClient` instance:
configuration fields fixed at construction plus the conversation store. -/
structure ClientState where
  endpoint : String
  apiKey : String
  deploymentName : String
  apiVersion : String
  timeout : Nat
  initMsg : String
  messages : List Message
  files : List InternalFile
  options : GenerationOptions
  assistantId : Option String
  threadId : Option String
  lastResponse : Option CompletionResponse

/-- The default generation options set at construction
(`{ max_tokens: 4000, temperature: 0.7 }`). -/
def defaultOptions : GenerationOptions :=
  { max_tokens := some 4000, temperature := some 0.7, top_p := none }

/-- A validity check for one message, matching the two guards of
`add_message` (field presence via truthiness, then role membership). -/
def validMessage (m : Message) : Bool :=
  truthyS m.role && truthyS m.content &&
    (m.role == some "user" || m.role == some "assistant" || m.role == some "system")

/-- The per-element loop body of `add_message`: validate, then push.  The
state after a throw keeps every element pushed before the invalid one
(`this.messages.push` mutates in place). -/
def addMessageGo (st : ClientState) : List Message → Except String Unit × ClientState
  | [] => (.ok (), st)
  | m :: rest =>
    if !(truthyS m.role && truthyS m.content) then
      (.error "Each message must have role and content properties", st)
    else if !(m.role == some "user" || m.role == some "assistant" || m.role == some "system") then
      (.error "Message role must be user, assistant, or system", st)
    else
      addMessageGo { st with messages := st.messages ++ [m] } rest

/-- The `Message | Message[]` input of `add_message`. -/
inductive MessageInput where
  | single : Message → MessageInput
  | many : List Message → MessageInput

/-- `add_message` from the source: `Array.isArray` dispatch, then the
validate-and-push loop. -/
def add_message (st : ClientState) (input : MessageInput) : Except String Unit × ClientState :=
  addMessageGo st (match input with | .single m => [m] | .many ms => ms)

/-- `set_options`: shallow merge of the given partial options into the
stored ones (`{ ...this.options, ...options }`). -/
def set_options (st : ClientState) (o : GenerationOptions) : ClientState :=
  { st with options :=
    { max_tokens := o.max_tokens.orElse fun _ => st.options.max_tokens
      temperature := o.temperature.orElse fun _ => st.options.temperature
      top_p := o.top_p.orElse fun _ => st.options.top_p } }

/-- `clear` from the source: resets messages, files and both identifiers;
it touches neither the options nor `_lastResponse`. -/
def clear (st : ClientState) : ClientState :=
  { st with messages := [], files := [], assistantId := none, threadId := none }

/-- `raw_response`: fails when no completion result is stored. -/
def raw_response (st : ClientState) : Except String CompletionResponse :=
  match st.lastResponse with
  | none => .error "No response available. Call fetch() first."
  | some r => .ok r

/-- `response`: the first choice's message content, or `""` when the
stored response has no choices. -/
def response (st : ClientState) : Except String MsgContent :=
  match st.lastResponse with
  | none => .error "No response available. Call fetch() first."
  | some r =>
    .ok ((r.choices.head?.map fun c => c.message.content).getD (.str ""))

/-- Node's `extname(p).toLowerCase()` restricted to what `add_file` needs:
the dotted extension of the basename, lower-cased (`""` when the basename
has no dot or is a dot-file). -/
def extnameLower (p : String) : String :=
  let base := (p.splitOn "/").getLastD ""
  let parts := base.splitOn "."
  match parts with
  | [] => ""
  | [_] => ""
  | "" :: [_] => ""
  | _ => "." ++ (parts.getLastD "").toLower

/-- The extension-based kind inference of `add_file`
(`.json` maps to json, anything else to text). -/
def inferType (p : String) : FileType :=
  if extnameLower p == ".json" then .json else .text

/-- `add_file` from the source.  `parse` is the ambient `JSON.parse`
(`Except` error = the parse exception's message); `fs p` is the content of
path `p` when it exists (`existsSync` + `readFileSync`).  No field of the
result involves the network: `add_file` issues no requests. -/
def add_file (parse : String → Except String JsonVal) (fs : String → Option String)
    (st : ClientState) (cfg : FileConfig) : Except String Unit × ClientState :=
  match
    (if truthyV cfg.raw_file then
      match cfg.raw_file with
      | some raw =>
        if !(truthyS cfg.file_name) then
          .error "file_name is required when using raw_file"
        else
          .ok (cfg.file_name.getD "", raw, cfg.file_type.getD .text)
      | none => .error "file_name is required when using raw_file"
    else if truthyS cfg.file_path then
      match cfg.file_path with
      | some p =>
        (match fs p with
        | none => .error ("File not found: " ++ p)
        | some text =>
          .ok (p, JsValue.str text, cfg.file_type.getD (inferType p)))
      | none => .error ("File not found: " ++ "")
    else
      .error "Either raw_file or file_path must be provided"
      : Except String (String × JsValue × FileType)) with
  | .error e => (.error e, st)
  | .ok (pathStr, rawContent, type) =>
    match type with
    | .json =>
      (match rawContent with
      | .str s =>
        (match parse s with
        | .error pe => (.error ("Invalid JSON content: " ++ pe), st)
        | .ok j =>
          (.ok (), { st with files := st.files ++
            [{ path := pathStr, type := type, content := .json j, rawContent := rawContent }] }))
      | .json j =>
        (.ok (), { st with files := st.files ++
          [{ path := pathStr, type := type, content := .json j, rawContent := rawContent }] }))
    | .text =>
      (.ok (), { st with files := st.files ++
        [{ path := pathStr, type := type, content := rawContent, rawContent := rawContent }] })

/-- An HTTP failure as the client observes it: a non-success status and the
response body text (`response.status`, `await response.text()`). -/
structure HttpErr where
  status : Nat
  body : String

/-- The run object returned by the run-status endpoint: the client reads
`run.id`, `run.status` and `run.last_error?.message`. -/
structure RunObj where
  id : String
  status : String
  lastError : Option String

/-- The assistant-creation request body built by `_getOrCreateAssistant`
(the constant `name` and `tools` fields are kept; `tools` is always
`[{type: "code_interpreter"}]` and is left implicit). -/
structure AssistantReq where
  model : String
  name : String
  instructions : Option String
  temperature : Option Float

/-- One message of the thread-creation request body.  `attachments` holds
the attached file ids (each is sent with the constant code-interpreter
tool marker). -/
structure ThreadMessage where
  role : Option String
  content : Option String
  attachments : List String

/-- The thread-creation request body (`{ messages: threadMessages }`). -/
structure ThreadReq where
  messages : List ThreadMessage

/-- The run-submission request body (`{ assistant_id: this.assistantId }`). -/
structure RunReq where
  assistant_id : Option String

/-- One network request issued by the client, as recorded in the log. -/
inductive Request where
  | uploadFile : InternalFile → Request
  | createAssistant : AssistantReq → Request
  | createThread : ThreadReq → Request
  | createRun : RunReq → Request
  | pollRun : Nat → Request
  | getMessages : Request
  | deleteFile : String → Request

/-- The remote HTTP API as an oracle.  Each endpoint maps the request the
client sends to either the datum the client extracts from the response
JSON, or an `HttpErr` for a non-success status.  `pollRun runId n` is the
status response to the `n`-th poll of run `runId` (its error is the
`statusText` used in `Status check failed: ...`); `now` is the clock value
`Math.floor(Date.now() / 1000)` read when the response is materialized. -/
structure Remote where
  uploadFile : InternalFile → Except HttpErr String
  createAssistant : AssistantReq → Except HttpErr String
  createThread : ThreadReq → Except HttpErr String
  createRun : RunReq → Except HttpErr String
  pollRun : String → Nat → Except String RunObj
  getMessages : Except String (Option RemoteMsg)
  now : Nat

/-- The upload loop of `_uploadFiles`: files are uploaded one at a time in
staged order; the first failure aborts with the upload error message and
no later file is attempted. -/
def uploadFilesGo (remote : Remote) :
    List InternalFile → Except String (List UploadedFile) × List Request
  | [] => (.ok [], [])
  | f :: rest =>
    match remote.uploadFile f with
    | .error he =>
      (.error ("File upload failed (" ++ toString he.status ++ "): " ++ he.body),
       [.uploadFile f])
    | .ok fid =>
      match uploadFilesGo remote rest with
      | (.error e, log) => (.error e, .uploadFile f :: log)
      | (.ok ups, log) =>
        (.ok ({ id := fid, path := f.path, type := f.type } :: ups), .uploadFile f :: log)

/-- `_getOrCreateAssistant`: reuse a truthy `assistantId` without any
request; otherwise derive instructions from the first system message (or
the hard-coded fallback) and create the assistant, storing its id. -/
def getOrCreateAssistant (remote : Remote) (st : ClientState) :
    Except String Unit × ClientState × List Request :=
  if truthyS st.assistantId then (.ok (), st, [])
  else
    let systemMessage := st.messages.find? fun m => m.role == some "system"
    let instructions : Option String :=
      match systemMessage with
      | some m => m.content
      | none => some "You are a helpful assistant that can analyze files and answer questions."
    let req : AssistantReq :=
      { model := st.deploymentName, name := "File Analysis Assistant",
        instructions := instructions, temperature := st.options.temperature }
    match remote.createAssistant req with
    | .error he =>
      (.error ("Assistant creation failed (" ++ toString he.status ++ "): " ++ he.body),
       st, [.createAssistant req])
    | .ok aid => (.ok (), { st with assistantId := some aid }, [.createAssistant req])

/-- The thread message list built by `_getOrCreateThread`: system-role
messages are filtered out, and the element whose position equals the
position of the first user-role message of `this.messages` receives the
uploaded-file attachments (object identity `msg === this.messages.find(...)`
is modelled by position). -/
def threadMessages (msgs : List Message) (ups : List UploadedFile) : List ThreadMessage :=
  let firstUserIdx := msgs.findIdx fun m => m.role == some "user"
  ((msgs.enum).filter fun p => !(p.2.role == some "system")).map fun p =>
    { role := p.2.role, content := p.2.content,
      attachments :=
        if p.2.role == some "user" && !ups.isEmpty && p.1 == firstUserIdx then
          ups.map fun f => f.id
        else [] }

/-- `_getOrCreateThread`: reuse a truthy `threadId` without any request;
otherwise create a thread carrying `threadMessages` and store its id. -/
def getOrCreateThread (remote : Remote) (ups : List UploadedFile) (st : ClientState) :
    Except String Unit × ClientState × List Request :=
  if truthyS st.threadId then (.ok (), st, [])
  else
    let req : ThreadReq := { messages := threadMessages st.messages ups }
    match remote.createThread req with
    | .error he =>
      (.error ("Thread creation failed (" ++ toString he.status ++ "): " ++ he.body),
       st, [.createThread req])
    | .ok tid => (.ok (), { st with threadId := some tid }, [.createThread req])

/-- The body of `_waitForRunCompletion`'s while-loop, recursing on the
remaining attempts (`fuel = maxAttempts - attempts`).  Returns the result
together with the number of status checks performed. -/
def waitGo (poll : Nat → Except String RunObj) : Nat → Nat → Except String RunObj × Nat
  | 0, _ => (.error "Run timed out after 5 minutes", 0)
  | fuel + 1, attempts =>
    match poll attempts with
    | .error statusText => (.error ("Status check failed: " ++ statusText), 1)
    | .ok run =>
      if run.status == "completed" then (.ok run, 1)
      else if run.status == "failed" || run.status == "cancelled" || run.status == "expired" then
        (.error ("Run " ++ run.status ++ ": " ++ run.lastError.getD "Unknown error"), 1)
      else
        let r := waitGo poll fuel (attempts + 1)
        (r.1, r.2 + 1)

/-- `_waitForRunCompletion`: up to `maxAttempts = 60` status checks
starting from attempt 0. -/
def waitForRunCompletion (poll : Nat → Except String RunObj) : Except String RunObj × Nat :=
  waitGo poll 60 0

/-- `_runAssistant`: submit the run, then poll it to completion.  The log
records the run submission followed by one `pollRun` entry per status
check. -/
def runAssistant (remote : Remote) (st : ClientState) : Except String RunObj × List Request :=
  let req : RunReq := { assistant_id := st.assistantId }
  match remote.createRun req with
  | .error he =>
    (.error ("Run creation failed (" ++ toString he.status ++ "): " ++ he.body), [.createRun req])
  | .ok runId =>
    let r := waitForRunCompletion (remote.pollRun runId)
    (r.1, .createRun req :: (List.range r.2).map Request.pollRun)

/-- The extraction
`responseMessage?.content?.[0]?.text?.value ?? responseMessage?.content ?? ""`:
the first block's text value when present, otherwise the whole content
value when defined, otherwise the empty string.  (When the content is a
plain string `s`, `s[0]` is a one-character string whose `.text` is
undefined, so the fallback yields `s` itself.) -/
def contentValueOf : Option RemoteMsg → MsgContent
  | none => .str ""
  | some m =>
    match m.content with
    | .undef => .str ""
    | .str s => .str s
    | .arr [] => .arr []
    | .arr (b :: bs) =>
      match b with
      | some v => .str v
      | none => .arr (none :: bs)

/-- The extraction `responseMessage?.role ?? "assistant"`. -/
def roleOf (rm : Option RemoteMsg) : String :=
  (rm.bind fun m => m.role).getD "assistant"

/-- The outcome of one `fetch()` call: the thrown error or success, the
client state as left by the call (mutations made before a failure
persist), and the network requests issued. -/
structure FetchResult where
  result : Except String Unit
  state : ClientState
  log : List Request

/-- `fetch()` from the source: precondition check, upload, assistant and
thread resolution, run submission and poll, message retrieval,
materialization of the formatted response, then fire-and-forget cleanup
deletes of the uploaded files (their outcomes are ignored, only the
requests are recorded). -/
def fetchRun (remote : Remote) (st : ClientState) : FetchResult :=
  if st.messages.isEmpty && st.files.isEmpty then
    { result := .error "No messages or files to send. Use add_message() or add_file() first.",
      state := st, log := [] }
  else
    match uploadFilesGo remote st.files with
    | (.error e, log1) => { result := .error e, state := st, log := log1 }
    | (.ok ups, log1) =>
      match getOrCreateAssistant remote st with
      | (.error e, st1, log2) => { result := .error e, state := st1, log := log1 ++ log2 }
      | (.ok _, st1, log2) =>
        match getOrCreateThread remote ups st1 with
        | (.error e, st2, log3) =>
          { result := .error e, state := st2, log := log1 ++ log2 ++ log3 }
        | (.ok _, st2, log3) =>
          match runAssistant remote st2 with
          | (.error e, log4) =>
            { result := .error e, state := st2, log := log1 ++ log2 ++ log3 ++ log4 }
          | (.ok run, log4) =>
            match remote.getMessages with
            | .error statusText =>
              { result := .error ("Failed to get messages: " ++ statusText), state := st2,
                log := log1 ++ log2 ++ log3 ++ log4 ++ [.getMessages] }
            | .ok rm =>
              let formatted : CompletionResponse :=
                { id := run.id, object := "chat.completion", created := remote.now,
                  model := st2.deploymentName,
                  choices := [{ index := 0,
                                message := { role := roleOf rm, content := contentValueOf rm },
                                finish_reason := "stop" }] }
              let cleanup : List Request :=
                if ups.isEmpty then [] else ups.map fun f => Request.deleteFile f.id
              { result := .ok (), state := { st2 with lastResponse := some formatted },
                log := log1 ++ log2 ++ log3 ++ log4 ++ [.getMessages] ++ cleanup }

/-- `AzureAIConfig` from the source (optional fields may be absent). -/
structure AzureAIConfig where
  endpoint : String
  apiKey : String
  deploymentName : String
  apiVersion : Option String := none
  timeout : Option Nat := none
  initMsg : Option String := none

/-- The constructor's `this.endpoint.replace(/\/$/, "")`: drop one
trailing slash. -/
def stripTrailingSlash (s : String) : String :=
  match s.data.getLast? with
  | some '/' => String.mk s.data.dropLast
  | _ => s

/-- The `KudagonAzureAIClient` constructor together with
`_validateConfig`: fill defaults (`||` for the truthy-or fields, `??` for
`timeout`), fail on an empty endpoint, api key or deployment name, and
trim the endpoint's trailing slash. -/
def mkClient (cfg : AzureAIConfig) : Except String ClientState :=
  if cfg.endpoint == "" then .error "Endpoint is required"
  else if cfg.apiKey == "" then .error "API key is required"
  else if cfg.deploymentName == "" then .error "Deployment name is required"
  else
    .ok
      { endpoint := stripTrailingSlash cfg.endpoint
        apiKey := cfg.apiKey
        deploymentName := cfg.deploymentName
        apiVersion := if truthyS cfg.apiVersion then cfg.apiVersion.getD "" else "2024-08-01-preview"
        timeout := cfg.timeout.getD 30000
        initMsg := if truthyS cfg.initMsg then cfg.initMsg.getD "" else "You are a helpful assistant."
        messages := []
        files := []
        options := defaultOptions
        assistantId := none
        threadId := none
        lastResponse := none }

/-- A freshly constructed client used as the base state of the concrete
witnesses below. -/
def testState : ClientState :=
  { endpoint := "https://example.openai.azure.com"
    apiKey := "key-1"
    apiVersion := "2024-08-01-preview"
    deploymentName := "gpt-test"
    timeout := 30000
    initMsg := "You are a helpful assistant."
    messages := []
    files := []
    options := defaultOptions
    assistantId := none
    threadId := none
    lastResponse := none }

/-- Recognizer for assistant-creation requests in the log. -/
def isCreateAssistantReq : Request → Bool
  | .createAssistant _ => true
  | _ => false

/-- Recognizer for thread-creation requests in the log. -/
def isCreateThreadReq : Request → Bool
  | .createThread _ => true
  | _ => false

/-- Number of assistant-creation requests in a request log. -/
def countCreateAssistant (log : List Request) : Nat :=
  (log.filter isCreateAssistantReq).length

/-- Number of thread-creation requests in a request log. -/
def countCreateThread (log : List Request) : Nat :=
  (log.filter isCreateThreadReq).length

/-- A poll response is non-terminal when it is a successful status read
whose status is neither `completed` nor one of the remote failure states
`failed`, `cancelled`, `expired`. -/
def nonTerminalPoll (r : Except String RunObj) : Bool :=
  match r with
  | .error _ => false
  | .ok run =>
    !(run.status == "completed") &&
      !(run.status == "failed" || run.status == "cancelled" || run.status == "expired")

/-- The filter-and-map core of `threadMessages`, abstracted over the
enumerated message list and the position of the first user message. -/
def tmBuild (ups : List UploadedFile) (firstUserIdx : Nat)
    (l : List (Nat × Message)) : List ThreadMessage :=
  (l.filter fun p => !(p.2.role == some "system")).map fun p =>
    { role := p.2.role, content := p.2.content,
      attachments :=
        if p.2.role == some "user" && !ups.isEmpty && p.1 == firstUserIdx then
          ups.map fun f => f.id
        else [] }

/-- A direct recursion computing the same thread message list as
`threadMessages`, tracking with a flag whether the first user message has
already been passed; used to reason about the attachment placement. -/
def tmAlt (ups : List UploadedFile) : List Message → Bool → List ThreadMessage
  | [], _ => []
  | m :: rest, seen =>
    if m.role == some "system" then tmAlt ups rest seen
    else if m.role == some "user" && !seen then
      { role := m.role, content := m.content,
        attachments := if !ups.isEmpty then ups.map fun f => f.id else [] }
        :: tmAlt ups rest true
    else
      { role := m.role, content := m.content, attachments := [] } :: tmAlt ups rest seen

/-- A completion response used by the concrete states below. -/
def respR : CompletionResponse :=
  { id := "run-0", object := "chat.completion", created := 0, model := "gpt-test", choices := [] }

/-- A remote oracle on which every call succeeds and the run completes on
the first poll. -/
def remoteOK : Remote :=
  { uploadFile := fun _ => .ok "file-abc"
    createAssistant := fun _ => .ok "asst-1"
    createThread := fun _ => .ok "thr-1"
    createRun := fun _ => .ok "run-1"
    pollRun := fun _ _ => .ok { id := "run-1", status := "completed", lastError := none }
    getMessages := .ok (some { role := some "assistant", content := .arr [some "hi there"] })
    now := 1760000000 }

/-- `remoteOK` with a failing run-submission endpoint. -/
def remoteRunFail : Remote :=
  { remoteOK with createRun := fun _ => .error { status := 500, body := "boom" } }

/-- A client state holding one valid user message. -/
def stUser : ClientState :=
  { testState with messages := [{ role := some "user", content := some "hello" }] }

/-- `stUser` with a previously stored completion result. -/
def stUserWithResp : ClientState :=
  { stUser with lastResponse := some respR }

/-- `stUser` with an empty-string assistant id (non-null but falsy) and a
truthy thread id. -/
def stEmptyAssistantId : ClientState :=
  { stUser with assistantId := some "", threadId := some "thr-0" }

/-- `stUser` with both remote identifiers already set and truthy. -/
def stBothIds : ClientState :=
  { stUser with assistantId := some "asst-0", threadId := some "thr-0" }

/-- A file-staging configuration carrying malformed raw JSON content. -/
def c7cfg : FileConfig :=
  { raw_file := some (.str "not valid json"), file_name := some "data.json",
    file_type := some FileType.json }

/-- A `JSON.parse` oracle that rejects every string. -/
def c7parse : String → Except String JsonVal :=
  fun _ => .error "Unexpected token o in JSON at position 1"

/-- A file-system oracle with no files. -/
def c7fs : String → Option String := fun _ => none

/-- A poll oracle that always reports `in_progress`. -/
def c4poll : Nat → Except String RunObj :=
  fun _ => .ok { id := "run-1", status := "in_progress", lastError := none }

/-- A message sequence exercising the thread-building shape: a system
message, an assistant message, and two user messages. -/
def c5msgs : List Message :=
  [{ role := some "system", content := some "be brief" },
   { role := some "assistant", content := some "earlier reply" },
   { role := some "user", content := some "first question" },
   { role := some "user", content := some "second question" }]

/-- A non-empty uploaded-file batch. -/
def c5ups : List UploadedFile :=
  [{ id := "file-1", path := "a.json", type := .json },
   { id := "file-2", path := "b.txt", type := .text }]

/-- The state `mkClient` actually produces on the test configuration is
`testState`. -/
theorem testState_eq_mkClient :
    mkClient { endpoint := "https://example.openai.azure.com", apiKey := "key-1",
               deploymentName := "gpt-test" } = .ok testState := rfl

/-- C8: `clear()` empties the message and file lists, nulls both remote
identifiers, and leaves the generation options exactly as they were —
including options obtained through `set_options` merges over the
defaults. -/
theorem c8_clear_resets (st : ClientState) (o : GenerationOptions) :
    (clear st).messages = [] ∧ (clear st).files = [] ∧
    (clear st).assistantId = none ∧ (clear st).threadId = none ∧
    (clear st).options = st.options ∧
    (clear (set_options st o)).options = (set_options st o).options :=
  ⟨rfl, rfl, rfl, rfl, rfl, rfl⟩

/-- C10: a message whose `content` is the empty string is rejected by the
falsiness presence check with the missing-field error, even when `role` is
present and valid, and the state is left unchanged. -/
theorem c10_empty_content_rejected (st : ClientState) (m : Message) (r : String)
    (_hrole : m.role = some r)
    (_hvalid : r = "user" ∨ r = "assistant" ∨ r = "system")
    (hcontent : m.content = some "") :
    add_message st (.single m) =
      (.error "Each message must have role and content properties", st) := by
  unfold add_message addMessageGo
  simp [hcontent, truthyS]

/-- Concrete instantiation of `c10_empty_content_rejected`. -/
theorem c10_witness :
    (Message.mk (some "user") (some "")).role = some "user" ∧
    ("user" = "user" ∨ "user" = "assistant" ∨ "user" = "system") ∧
    (Message.mk (some "user") (some "")).content = some "" ∧
    add_message testState (.single (Message.mk (some "user") (some ""))) =
      (.error "Each message must have role and content properties", testState) :=
  ⟨rfl, Or.inl rfl, rfl,
    c10_empty_content_rejected testState (Message.mk (some "user") (some "")) "user"
      rfl (Or.inl rfl) rfl⟩

/-- C1, counterexample: a valid message followed by an invalid-role
message makes `add_message` fail, but the valid first element has already
been appended — the store is not left as it was before the call. -/
theorem c1_counterexample :
    (add_message testState
        (.many [Message.mk (some "user") (some "hello"),
                Message.mk (some "moderator") (some "hi")])).1 =
      .error "Message role must be user, assistant, or system" ∧
    (add_message testState
        (.many [Message.mk (some "user") (some "hello"),
                Message.mk (some "moderator") (some "hi")])).2.messages =
      [Message.mk (some "user") (some "hello")] ∧
    testState.messages = [] :=
  ⟨rfl, rfl, rfl⟩

/-- C1, amended: `add_message` validates and appends element by element,
so when the sequence contains an invalid element the call fails with
ValidationError but the valid elements before the first invalid one remain
appended (the message list becomes the old list extended by the valid
leading elements of the input). -/
theorem c1_addMessage_element_wise (st : ClientState) (msgs : List Message)
    (h : msgs.any (fun m => !validMessage m) = true) :
    ∃ e, add_message st (.many msgs) =
      (.error e, { st with messages := st.messages ++ msgs.takeWhile validMessage }) := by
  unfold add_message
  induction msgs generalizing st with
  | nil => simp at h
  | cons m rest ih =>
    by_cases hv : validMessage m = true
    · have hpres : (truthyS m.role && truthyS m.content) = true := by
        have := hv
        unfold validMessage at this
        exact (Bool.and_eq_true .. ▸ this).1
      have hrole : (m.role == some "user" || m.role == some "assistant"
          || m.role == some "system") = true := by
        have := hv
        unfold validMessage at this
        exact (Bool.and_eq_true .. ▸ this).2
      have h' : rest.any (fun m => !validMessage m) = true := by
        simpa [hv] using h
      obtain ⟨e, he⟩ := ih { st with messages := st.messages ++ [m] } h'
      refine ⟨e, ?_⟩
      rw [addMessageGo, hpres, hrole]
      simp only [Bool.not_true, Bool.false_eq_true, if_false]
      rw [he]
      simp [List.takeWhile_cons, hv, List.append_assoc]
    · have hv' : validMessage m = false := Bool.eq_false_iff.mpr hv
      have htw : (m :: rest).takeWhile validMessage = [] := by
        simp [List.takeWhile_cons, hv']
      rw [htw, List.append_nil]
      by_cases hpres : (truthyS m.role && truthyS m.content) = true
      · have hrole : (m.role == some "user" || m.role == some "assistant"
            || m.role == some "system") = false := by
          unfold validMessage at hv'
          rcases Bool.and_eq_false_iff.mp hv' with hc | hc
          · rw [hpres] at hc; simp at hc
          · exact hc
        refine ⟨"Message role must be user, assistant, or system", ?_⟩
        rw [addMessageGo, hpres, hrole]
        rfl
      · have hpres' : (truthyS m.role && truthyS m.content) = false :=
          Bool.eq_false_iff.mpr hpres
        refine ⟨"Each message must have role and content properties", ?_⟩
        rw [addMessageGo, hpres']
        rfl

/-- Concrete instantiation of `c1_addMessage_element_wise`: the two-element
sequence of `c1_counterexample`. -/
theorem c1_witness :
    (([Message.mk (some "user") (some "hello"),
       Message.mk (some "moderator") (some "hi")].any fun m => !validMessage m) = true) ∧
    ∃ e, add_message testState
        (.many [Message.mk (some "user") (some "hello"),
                Message.mk (some "moderator") (some "hi")]) =
      (.error e, { testState with messages := testState.messages ++
        ([Message.mk (some "user") (some "hello"),
          Message.mk (some "moderator") (some "hi")].takeWhile validMessage) }) :=
  ⟨rfl, c1_addMessage_element_wise testState
    [Message.mk (some "user") (some "hello"), Message.mk (some "moderator") (some "hi")] rfl⟩

/-- C7: staging a file whose raw content is a string of `json` kind that
`JSON.parse` rejects fails at staging time with the ValidationError naming
the parse error, and leaves the client state (in particular the file list)
unchanged.  `add_file` takes no remote oracle: it cannot issue a network
request, so the failure occurs before any network call. -/
theorem c7_addFile_json_parse_error
    (parse : String → Except String JsonVal) (fs : String → Option String)
    (st : ClientState) (cfg : FileConfig) (s nameStr pe : String)
    (hraw : cfg.raw_file = some (.str s)) (hs : (s == "") = false)
    (hname : cfg.file_name = some nameStr) (hn : (nameStr == "") = false)
    (htype : cfg.file_type = some .json)
    (hparse : parse s = .error pe) :
    add_file parse fs st cfg = (.error ("Invalid JSON content: " ++ pe), st) := by
  unfold add_file
  simp [hraw, hname, htype, truthyV, truthyS, hs, hn, hparse]

/-- Concrete instantiation of `c7_addFile_json_parse_error`. -/
theorem c7_witness :
    c7cfg.raw_file = some (.str "not valid json") ∧
    (("not valid json" == "") = false) ∧
    c7cfg.file_name = some "data.json" ∧
    (("data.json" == "") = false) ∧
    c7cfg.file_type = some FileType.json ∧
    c7parse "not valid json" = .error "Unexpected token o in JSON at position 1" ∧
    add_file c7parse c7fs testState c7cfg =
      (.error ("Invalid JSON content: " ++ "Unexpected token o in JSON at position 1"),
       testState) :=
  ⟨rfl, by decide, rfl, by decide, rfl, rfl,
   c7_addFile_json_parse_error c7parse c7fs testState c7cfg
     "not valid json" "data.json" "Unexpected token o in JSON at position 1"
     rfl (by decide) rfl (by decide) rfl rfl⟩

/-- C2, counterexample: after a successful run, `clear()` does NOT remove
the stored completion result — `raw_response` still succeeds right after
`clear()`, with no run having happened since the clear. -/
theorem c2_counterexample :
    (fetchRun remoteOK stUser).result = .ok () ∧
    (clear (fetchRun remoteOK stUser).state).lastResponse = some
      { id := "run-1", object := "chat.completion", created := 1760000000, model := "gpt-test",
        choices := [{ index := 0,
                      message := { role := "assistant", content := .str "hi there" },
                      finish_reason := "stop" }] } ∧
    raw_response (clear (fetchRun remoteOK stUser).state) = .ok
      { id := "run-1", object := "chat.completion", created := 1760000000, model := "gpt-test",
        choices := [{ index := 0,
                      message := { role := "assistant", content := .str "hi there" },
                      finish_reason := "stop" }] } :=
  ⟨rfl, rfl, rfl⟩

/-- C2, amended: a stored CompletionResult persists across `clear()` —
`clear()` resets the conversation but leaves `_lastResponse` in place, so
`raw_response()`/`response()` still return the previous result after
`clear()`, until it is overwritten by a later successful run. -/
theorem c2_clear_keeps_result (st : ClientState) (r : CompletionResponse)
    (h : st.lastResponse = some r) :
    (clear st).lastResponse = some r ∧
    raw_response (clear st) = .ok r ∧
    response (clear st) = response st := by
  refine ⟨h, ?_, rfl⟩
  unfold raw_response clear
  simp [h]

/-- Concrete instantiation of `c2_clear_keeps_result`. -/
theorem c2_witness :
    stUserWithResp.lastResponse = some respR ∧
    ((clear stUserWithResp).lastResponse = some respR ∧
      raw_response (clear stUserWithResp) = .ok respR ∧
      response (clear stUserWithResp) = response stUserWithResp) :=
  ⟨rfl, c2_clear_keeps_result stUserWithResp respR rfl⟩

/-- `_getOrCreateAssistant` only ever touches `assistantId`: the thread
id, the stored completion result and the deployment name are preserved. -/
theorem gca_preserves (remote : Remote) (st : ClientState) :
    ((getOrCreateAssistant remote st).2.1).threadId = st.threadId ∧
    ((getOrCreateAssistant remote st).2.1).lastResponse = st.lastResponse ∧
    ((getOrCreateAssistant remote st).2.1).deploymentName = st.deploymentName := by
  unfold getOrCreateAssistant
  split
  · exact ⟨rfl, rfl, rfl⟩
  · dsimp only
    split <;> exact ⟨rfl, rfl, rfl⟩

/-- `_getOrCreateThread` only ever touches `threadId`. -/
theorem gct_preserves (remote : Remote) (ups : List UploadedFile) (st : ClientState) :
    ((getOrCreateThread remote ups st).2.1).assistantId = st.assistantId ∧
    ((getOrCreateThread remote ups st).2.1).lastResponse = st.lastResponse ∧
    ((getOrCreateThread remote ups st).2.1).deploymentName = st.deploymentName := by
  unfold getOrCreateThread
  split
  · exact ⟨rfl, rfl, rfl⟩
  · dsimp only
    split <;> exact ⟨rfl, rfl, rfl⟩

/-- A truthy `assistantId` short-circuits `_getOrCreateAssistant`: no
request, no state change. -/
theorem gca_of_truthy (remote : Remote) (st : ClientState)
    (h : truthyS st.assistantId = true) :
    getOrCreateAssistant remote st = (.ok (), st, []) := by
  unfold getOrCreateAssistant
  rw [if_pos h]

/-- A truthy `threadId` short-circuits `_getOrCreateThread`. -/
theorem gct_of_truthy (remote : Remote) (ups : List UploadedFile) (st : ClientState)
    (h : truthyS st.threadId = true) :
    getOrCreateThread remote ups st = (.ok (), st, []) := by
  unfold getOrCreateThread
  rw [if_pos h]

/-- Every request the upload loop issues is a file upload. -/
theorem uploadFilesGo_log (remote : Remote) (fls : List InternalFile) :
    ∀ q ∈ (uploadFilesGo remote fls).2, ∃ f, q = Request.uploadFile f := by
  induction fls with
  | nil => intro q hq; simp [uploadFilesGo] at hq
  | cons f rest ih =>
    intro q hq
    unfold uploadFilesGo at hq
    cases hup : remote.uploadFile f with
    | error he => rw [hup] at hq; simp at hq; exact ⟨f, hq⟩
    | ok fid =>
      rw [hup] at hq
      cases hrec : uploadFilesGo remote rest with
      | mk r log =>
        rw [hrec] at hq
        cases r with
        | error e =>
          simp at hq
          rcases hq with hq | hq
          · exact ⟨f, hq⟩
          · exact ih q (by rw [hrec]; exact hq)
        | ok ups =>
          simp at hq
          rcases hq with hq | hq
          · exact ⟨f, hq⟩
          · exact ih q (by rw [hrec]; exact hq)

/-- Every request `_runAssistant` issues is a run submission or a poll. -/
theorem runAssistant_log (remote : Remote) (st : ClientState) :
    ∀ q ∈ (runAssistant remote st).2,
      (∃ r, q = Request.createRun r) ∨ (∃ n, q = Request.pollRun n) := by
  intro q hq
  unfold runAssistant at hq
  dsimp only at hq
  cases hcr : remote.createRun { assistant_id := st.assistantId } with
  | error he => rw [hcr] at hq; simp at hq; exact .inl ⟨_, hq⟩
  | ok runId =>
    rw [hcr] at hq
    simp at hq
    rcases hq with hq | ⟨n, _, hq⟩
    · exact .inl ⟨_, hq⟩
    · exact .inr ⟨n, hq.symm⟩

/-- A filtered list is empty when the predicate fails everywhere. -/
theorem filter_len_zero {α : Type} (p : α → Bool) (l : List α)
    (h : ∀ q ∈ l, p q = false) : (l.filter p).length = 0 := by
  induction l with
  | nil => rfl
  | cons a t ih =>
    have ha := h a (by simp)
    rw [List.filter_cons, ha]
    exact ih fun q hq => h q (by simp [hq])

/-- The upload loop issues no assistant-creation request. -/
theorem countCA_uploadsGo (remote : Remote) (fls : List InternalFile) :
    countCreateAssistant (uploadFilesGo remote fls).2 = 0 :=
  filter_len_zero _ _ fun q hq => by
    rcases uploadFilesGo_log remote fls q hq with ⟨f, rfl⟩; rfl

/-- The upload loop issues no thread-creation request. -/
theorem countCT_uploadsGo (remote : Remote) (fls : List InternalFile) :
    countCreateThread (uploadFilesGo remote fls).2 = 0 :=
  filter_len_zero _ _ fun q hq => by
    rcases uploadFilesGo_log remote fls q hq with ⟨f, rfl⟩; rfl

/-- `_runAssistant` issues no assistant-creation request. -/
theorem countCA_runAssistant (remote : Remote) (st : ClientState) :
    countCreateAssistant (runAssistant remote st).2 = 0 :=
  filter_len_zero _ _ fun q hq => by
    rcases runAssistant_log remote st q hq with ⟨r, rfl⟩ | ⟨n, rfl⟩ <;> rfl

/-- `_runAssistant` issues no thread-creation request. -/
theorem countCT_runAssistant (remote : Remote) (st : ClientState) :
    countCreateThread (runAssistant remote st).2 = 0 :=
  filter_len_zero _ _ fun q hq => by
    rcases runAssistant_log remote st q hq with ⟨r, rfl⟩ | ⟨n, rfl⟩ <;> rfl

/-- `_getOrCreateThread` issues no assistant-creation request. -/
theorem countCA_gct (remote : Remote) (ups : List UploadedFile) (st : ClientState) :
    countCreateAssistant (getOrCreateThread remote ups st).2.2 = 0 := by
  unfold getOrCreateThread
  split
  · rfl
  · dsimp only
    split <;> rfl

/-- `_getOrCreateAssistant` issues no thread-creation request. -/
theorem countCT_gca (remote : Remote) (st : ClientState) :
    countCreateThread (getOrCreateAssistant remote st).2.2 = 0 := by
  unfold getOrCreateAssistant
  split
  · rfl
  · dsimp only
    split <;> rfl

/-- The post-run cleanup issues only file-deletion requests. -/
theorem cleanup_log (ups : List UploadedFile) :
    ∀ q ∈ (if ups.isEmpty then ([] : List Request)
           else ups.map fun f => Request.deleteFile f.id),
      ∃ i, q = Request.deleteFile i := by
  intro q hq
  split at hq
  · simp at hq
  · rcases List.mem_map.mp hq with ⟨f, _, rfl⟩
    exact ⟨f.id, rfl⟩

/-- Request counts distribute over log concatenation. -/
theorem countCA_append (l1 l2 : List Request) :
    countCreateAssistant (l1 ++ l2) = countCreateAssistant l1 + countCreateAssistant l2 := by
  unfold countCreateAssistant
  rw [List.filter_append, List.length_append]

/-- Request counts distribute over log concatenation. -/
theorem countCT_append (l1 l2 : List Request) :
    countCreateThread (l1 ++ l2) = countCreateThread l1 + countCreateThread l2 := by
  unfold countCreateThread
  rw [List.filter_append, List.length_append]

/-- Unless `fetch()` succeeds, it leaves the stored completion result
untouched (the state it returns carries the original `_lastResponse`). -/
theorem fetchRun_ok_or_preserves (remote : Remote) (st : ClientState) :
    (fetchRun remote st).result = .ok () ∨
    (fetchRun remote st).state.lastResponse = st.lastResponse := by
  unfold fetchRun
  split
  · right; rfl
  · split
    · right; rfl
    · next ups log1 _ =>
      split
      · next e st1 log2 heq =>
        right
        have h := (gca_preserves remote st).2.1
        rw [heq] at h
        exact h
      · next st1 log2 heq =>
        have h1 : st1.lastResponse = st.lastResponse := by
          have h := (gca_preserves remote st).2.1
          rw [heq] at h
          exact h
        split
        · next e st2 log3 heq2 =>
          right
          have h2 := (gct_preserves remote ups st1).2.1
          rw [heq2] at h2
          exact h2.trans h1
        · next st2 log3 heq2 =>
          have h2 : st2.lastResponse = st.lastResponse := by
            have h := (gct_preserves remote ups st1).2.1
            rw [heq2] at h
            exact h.trans h1
          split
          · right; exact h2
          · split
            · right; exact h2
            · left; rfl

/-- C3: whenever `fetch()` fails, in whichever of its steps, the stored
CompletionResult is not mutated — the state coming out of the failed call
carries the original `_lastResponse`, so `raw_response()`/`response()`
behave exactly as before the call (and no result exists afterwards if none
existed before). -/
theorem c3_fetch_error_preserves_result (remote : Remote) (st : ClientState) (e : String)
    (h : (fetchRun remote st).result = .error e) :
    (fetchRun remote st).state.lastResponse = st.lastResponse ∧
    raw_response (fetchRun remote st).state = raw_response st ∧
    response (fetchRun remote st).state = response st := by
  have key : (fetchRun remote st).state.lastResponse = st.lastResponse := by
    rcases fetchRun_ok_or_preserves remote st with hok | hp
    · rw [h] at hok
      exact absurd hok (by simp)
    · exact hp
  refine ⟨key, ?_, ?_⟩
  · unfold raw_response
    rw [key]
  · unfold response
    rw [key]

/-- Concrete instantiation of `c3_fetch_error_preserves_result`: a failing
run submission leaves the previously stored result readable. -/
theorem c3_witness :
    (fetchRun remoteRunFail stUserWithResp).result = .error "Run creation failed (500): boom" ∧
    ((fetchRun remoteRunFail stUserWithResp).state.lastResponse = stUserWithResp.lastResponse ∧
      raw_response (fetchRun remoteRunFail stUserWithResp).state = raw_response stUserWithResp ∧
      response (fetchRun remoteRunFail stUserWithResp).state = response stUserWithResp) :=
  ⟨rfl, c3_fetch_error_preserves_result remoteRunFail stUserWithResp
    "Run creation failed (500): boom" rfl⟩

/-- Every request `_getOrCreateAssistant` issues is an assistant
creation. -/
theorem gca_log (remote : Remote) (st : ClientState) :
    ∀ q ∈ (getOrCreateAssistant remote st).2.2, ∃ a, q = Request.createAssistant a := by
  intro q hq
  unfold getOrCreateAssistant at hq
  split at hq
  · simp at hq
  · dsimp only at hq
    split at hq <;> simp at hq <;> exact ⟨_, hq⟩

/-- Every request `_getOrCreateThread` issues is a thread creation. -/
theorem gct_log (remote : Remote) (ups : List UploadedFile) (st : ClientState) :
    ∀ q ∈ (getOrCreateThread remote ups st).2.2, ∃ t, q = Request.createThread t := by
  intro q hq
  unfold getOrCreateThread at hq
  split at hq
  · simp at hq
  · dsimp only at hq
    split at hq <;> simp at hq <;> exact ⟨_, hq⟩

/-- With a truthy `assistantId`, no request in the whole `fetch()` log is
an assistant creation. -/
theorem fetch_noCA (remote : Remote) (st : ClientState)
    (ha : truthyS st.assistantId = true) :
    ∀ q ∈ (fetchRun remote st).log, isCreateAssistantReq q = false := by
  intro q hq
  unfold fetchRun at hq
  split at hq
  · simp at hq
  · split at hq
    · next e log1 hup =>
      rcases uploadFilesGo_log remote st.files q (by rw [hup]; exact hq) with ⟨f, rfl⟩
      rfl
    · next ups log1 hup =>
      rw [gca_of_truthy remote st ha] at hq
      dsimp only at hq
      split at hq
      · next e st2 log3 hgct =>
        simp only [List.mem_append] at hq
        rcases hq with (hq | hq) | hq
        · rcases uploadFilesGo_log remote st.files q (by rw [hup]; exact hq) with ⟨f, rfl⟩
          rfl
        · simp at hq
        · rcases gct_log remote ups st q (by rw [hgct]; exact hq) with ⟨t, rfl⟩
          rfl
      · next st2 log3 hgct =>
        split at hq
        · next e log4 hra =>
          simp only [List.mem_append] at hq
          rcases hq with ((hq | hq) | hq) | hq
          · rcases uploadFilesGo_log remote st.files q (by rw [hup]; exact hq) with ⟨f, rfl⟩
            rfl
          · simp at hq
          · rcases gct_log remote ups st q (by rw [hgct]; exact hq) with ⟨t, rfl⟩
            rfl
          · rcases runAssistant_log remote st2 q (by rw [hra]; exact hq) with ⟨r, rfl⟩ | ⟨n, rfl⟩ <;> rfl
        · next run log4 hra =>
          split at hq
          · next sx hgm =>
            simp only [List.mem_append] at hq
            rcases hq with (((hq | hq) | hq) | hq) | hq
            · rcases uploadFilesGo_log remote st.files q (by rw [hup]; exact hq) with ⟨f, rfl⟩
              rfl
            · simp at hq
            · rcases gct_log remote ups st q (by rw [hgct]; exact hq) with ⟨t, rfl⟩
              rfl
            · rcases runAssistant_log remote st2 q (by rw [hra]; exact hq) with ⟨r, rfl⟩ | ⟨n, rfl⟩ <;> rfl
            · simp at hq
              subst hq
              rfl
          · next rm hgm =>
            dsimp only at hq
            simp only [List.mem_append] at hq
            rcases hq with ((((hq | hq) | hq) | hq) | hq) | hq
            · rcases uploadFilesGo_log remote st.files q (by rw [hup]; exact hq) with ⟨f, rfl⟩
              rfl
            · simp at hq
            · rcases gct_log remote ups st q (by rw [hgct]; exact hq) with ⟨t, rfl⟩
              rfl
            · rcases runAssistant_log remote st2 q (by rw [hra]; exact hq) with ⟨r, rfl⟩ | ⟨n, rfl⟩ <;> rfl
            · simp at hq
              subst hq
              rfl
            · rcases cleanup_log ups q hq with ⟨i, rfl⟩
              rfl

/-- With a truthy `threadId`, no request in the whole `fetch()` log is a
thread creation. -/
theorem fetch_noCT (remote : Remote) (st : ClientState)
    (ht : truthyS st.threadId = true) :
    ∀ q ∈ (fetchRun remote st).log, isCreateThreadReq q = false := by
  intro q hq
  unfold fetchRun at hq
  split at hq
  · simp at hq
  · split at hq
    · next e log1 hup =>
      rcases uploadFilesGo_log remote st.files q (by rw [hup]; exact hq) with ⟨f, rfl⟩
      rfl
    · next ups log1 hup =>
      split at hq
      · next e st1 log2 hgca =>
        simp only [List.mem_append] at hq
        rcases hq with hq | hq
        · rcases uploadFilesGo_log remote st.files q (by rw [hup]; exact hq) with ⟨f, rfl⟩
          rfl
        · rcases gca_log remote st q (by rw [hgca]; exact hq) with ⟨a, rfl⟩
          rfl
      · next st1 log2 hgca =>
        have ht1 : truthyS st1.threadId = true := by
          have hp := (gca_preserves remote st).1
          rw [hgca] at hp
          rw [hp]
          exact ht
        rw [gct_of_truthy remote ups st1 ht1] at hq
        dsimp only at hq
        split at hq
        · next e log4 hra =>
          simp only [List.mem_append] at hq
          rcases hq with ((hq | hq) | hq) | hq
          · rcases uploadFilesGo_log remote st.files q (by rw [hup]; exact hq) with ⟨f, rfl⟩
            rfl
          · rcases gca_log remote st q (by rw [hgca]; exact hq) with ⟨a, rfl⟩
            rfl
          · simp at hq
          · rcases runAssistant_log remote st1 q (by rw [hra]; exact hq) with ⟨r, rfl⟩ | ⟨n, rfl⟩ <;> rfl
        · next run log4 hra =>
          split at hq
          · next sx hgm =>
            simp only [List.mem_append] at hq
            rcases hq with (((hq | hq) | hq) | hq) | hq
            · rcases uploadFilesGo_log remote st.files q (by rw [hup]; exact hq) with ⟨f, rfl⟩
              rfl
            · rcases gca_log remote st q (by rw [hgca]; exact hq) with ⟨a, rfl⟩
              rfl
            · simp at hq
            · rcases runAssistant_log remote st1 q (by rw [hra]; exact hq) with ⟨r, rfl⟩ | ⟨n, rfl⟩ <;> rfl
            · simp at hq
              subst hq
              rfl
          · next rm hgm =>
            dsimp only at hq
            simp only [List.mem_append] at hq
            rcases hq with ((((hq | hq) | hq) | hq) | hq) | hq
            · rcases uploadFilesGo_log remote st.files q (by rw [hup]; exact hq) with ⟨f, rfl⟩
              rfl
            · rcases gca_log remote st q (by rw [hgca]; exact hq) with ⟨a, rfl⟩
              rfl
            · simp at hq
            · rcases runAssistant_log remote st1 q (by rw [hra]; exact hq) with ⟨r, rfl⟩ | ⟨n, rfl⟩ <;> rfl
            · simp at hq
              subst hq
              rfl
            · rcases cleanup_log ups q hq with ⟨i, rfl⟩
              rfl

/-- With a truthy `assistantId`, `fetch()` leaves `assistantId`
unchanged. -/
theorem fetch_keeps_assistantId (remote : Remote) (st : ClientState)
    (ha : truthyS st.assistantId = true) :
    (fetchRun remote st).state.assistantId = st.assistantId := by
  unfold fetchRun
  split
  · rfl
  · split
    · rfl
    · next ups log1 hup =>
      rw [gca_of_truthy remote st ha]
      dsimp only
      split
      · next e st2 log3 hgct =>
        have hp := (gct_preserves remote ups st).1
        rw [hgct] at hp
        exact hp
      · next st2 log3 hgct =>
        have hp : st2.assistantId = st.assistantId := by
          have h := (gct_preserves remote ups st).1
          rw [hgct] at h
          exact h
        split
        · exact hp
        · split
          · exact hp
          · exact hp

/-- With a truthy `threadId`, `fetch()` leaves `threadId` unchanged. -/
theorem fetch_keeps_threadId (remote : Remote) (st : ClientState)
    (ht : truthyS st.threadId = true) :
    (fetchRun remote st).state.threadId = st.threadId := by
  unfold fetchRun
  split
  · rfl
  · split
    · rfl
    · next ups log1 hup =>
      split
      · next e st1 log2 hgca =>
        have hp := (gca_preserves remote st).1
        rw [hgca] at hp
        exact hp
      · next st1 log2 hgca =>
        have hp1 : st1.threadId = st.threadId := by
          have h := (gca_preserves remote st).1
          rw [hgca] at h
          exact h
        have ht1 : truthyS st1.threadId = true := by rw [hp1]; exact ht
        rw [gct_of_truthy remote ups st1 ht1]
        dsimp only
        split
        · exact hp1
        · split
          · exact hp1
          · exact hp1

/-- C6, amended: whenever `assistantId` (resp. `threadId`) is already set
to a truthy — non-null and non-empty — identifier, a subsequent `run()`
issues zero assistant-creation (resp. thread-creation) requests and the
stored identifier is reused unchanged.  (The source guards with JavaScript
truthiness, so the empty-string identifier is the one non-null value this
does not cover — see the counterexample.) -/
theorem c6_ids_set_once (remote : Remote) (st : ClientState) :
    (truthyS st.assistantId = true →
      countCreateAssistant (fetchRun remote st).log = 0 ∧
      (fetchRun remote st).state.assistantId = st.assistantId) ∧
    (truthyS st.threadId = true →
      countCreateThread (fetchRun remote st).log = 0 ∧
      (fetchRun remote st).state.threadId = st.threadId) :=
  ⟨fun ha => ⟨filter_len_zero _ _ (fetch_noCA remote st ha),
              fetch_keeps_assistantId remote st ha⟩,
   fun ht => ⟨filter_len_zero _ _ (fetch_noCT remote st ht),
              fetch_keeps_threadId remote st ht⟩⟩

/-- C6, counterexample: with the non-null but falsy identifier `""` stored
in `assistantId`, `run()` does issue an assistant-creation request and
overwrites the stored identifier — the claim's "non-null implies zero
creation requests and unchanged id" fails at this input. -/
theorem c6_counterexample :
    stEmptyAssistantId.assistantId = some "" ∧
    stEmptyAssistantId.assistantId ≠ none ∧
    countCreateAssistant (fetchRun remoteOK stEmptyAssistantId).log = 1 ∧
    (fetchRun remoteOK stEmptyAssistantId).state.assistantId = some "asst-1" :=
  ⟨rfl, by decide, rfl, rfl⟩

/-- Concrete instantiation of `c6_ids_set_once` with both identifiers
truthy: zero creation requests of either kind, identifiers unchanged. -/
theorem c6_witness :
    truthyS stBothIds.assistantId = true ∧
    truthyS stBothIds.threadId = true ∧
    (countCreateAssistant (fetchRun remoteOK stBothIds).log = 0 ∧
      (fetchRun remoteOK stBothIds).state.assistantId = stBothIds.assistantId) ∧
    (countCreateThread (fetchRun remoteOK stBothIds).log = 0 ∧
      (fetchRun remoteOK stBothIds).state.threadId = stBothIds.threadId) :=
  ⟨rfl, rfl, (c6_ids_set_once remoteOK stBothIds).1 rfl,
    (c6_ids_set_once remoteOK stBothIds).2 rfl⟩

/-- A successful poll loop ends on a run object the remote reported with
status `completed`. -/
theorem waitGo_ok (poll : Nat → Except String RunObj) :
    ∀ fuel att run n, waitGo poll fuel att = (.ok run, n) →
      run.status = "completed" ∧ ∃ m, poll m = .ok run := by
  intro fuel
  induction fuel with
  | zero =>
    intro att run n h
    simp [waitGo] at h
  | succ f ih =>
    intro att run n h
    rw [waitGo] at h
    cases hp : poll att with
    | error s =>
      rw [hp] at h
      simp at h
    | ok r0 =>
      rw [hp] at h
      dsimp only at h
      by_cases hc : (r0.status == "completed") = true
      · rw [if_pos hc] at h
        simp only [Prod.mk.injEq, Except.ok.injEq] at h
        obtain ⟨h1, _⟩ := h
        subst h1
        exact ⟨eq_of_beq hc, ⟨att, hp⟩⟩
      · rw [if_neg hc] at h
        by_cases ht : (r0.status == "failed" || r0.status == "cancelled"
            || r0.status == "expired") = true
        · rw [if_pos ht] at h
          simp at h
        · rw [if_neg ht] at h
          have h1 : (waitGo poll f (att + 1)).1 = .ok run := by
            have := congrArg Prod.fst h
            simpa using this
          exact ih (att + 1) run (waitGo poll f (att + 1)).2
            (by rw [← h1])

/-- A successful `_runAssistant` returns the completed run object the
remote reported on some poll. -/
theorem runAssistant_ok (remote : Remote) (st : ClientState) (run : RunObj)
    (log : List Request) (h : runAssistant remote st = (.ok run, log)) :
    run.status = "completed" ∧ ∃ runId m, remote.pollRun runId m = .ok run := by
  unfold runAssistant at h
  dsimp only at h
  cases hcr : remote.createRun { assistant_id := st.assistantId } with
  | error he =>
    rw [hcr] at h
    simp at h
  | ok runId =>
    rw [hcr] at h
    dsimp only at h
    have h1 : (waitForRunCompletion (remote.pollRun runId)).1 = .ok run := by
      have := congrArg Prod.fst h
      simpa using this
    have h2 : waitGo (remote.pollRun runId) 60 0 =
        (.ok run, (waitGo (remote.pollRun runId) 60 0).2) := by
      unfold waitForRunCompletion at h1
      rw [← h1]
    obtain ⟨hs, m, hm⟩ := waitGo_ok (remote.pollRun runId) 60 0 run
      (waitGo (remote.pollRun runId) 60 0).2 h2
    exact ⟨hs, runId, m, hm⟩

/-- C9: the CompletionResult a successful run materializes has the fixed
finish reason `"stop"` — with no dependence on anything the remote
reported — and carries the completed run object's identifier, the client's
deployment name, the clock value, and the fetched message's role and
content as extracted by the source's fallback chain. -/
theorem c9_result_fields (remote : Remote) (st : ClientState)
    (h : (fetchRun remote st).result = .ok ()) :
    ∃ rm run,
      remote.getMessages = .ok rm ∧
      run.status = "completed" ∧
      (∃ runId n, remote.pollRun runId n = .ok run) ∧
      (fetchRun remote st).state.lastResponse = some
        { id := run.id, object := "chat.completion", created := remote.now,
          model := st.deploymentName,
          choices := [{ index := 0,
                        message := { role := roleOf rm, content := contentValueOf rm },
                        finish_reason := "stop" }] } := by
  unfold fetchRun at h ⊢
  by_cases hpre : (st.messages.isEmpty && st.files.isEmpty) = true
  · rw [if_pos hpre] at h
    simp at h
  · rw [if_neg hpre] at h ⊢
    cases hup : uploadFilesGo remote st.files with
    | mk r1 log1 =>
      rw [hup] at h
      cases r1 with
      | error e =>
        dsimp only at h
        simp at h
      | ok ups =>
        dsimp only at h ⊢
        cases hgca : getOrCreateAssistant remote st with
        | mk r2 rest2 =>
          cases rest2 with
          | mk st1 log2 =>
            rw [hgca] at h
            cases r2 with
            | error e =>
              dsimp only at h
              simp at h
            | ok u2 =>
              dsimp only at h ⊢
              cases hgct : getOrCreateThread remote ups st1 with
              | mk r3 rest3 =>
                cases rest3 with
                | mk st2 log3 =>
                  rw [hgct] at h
                  cases r3 with
                  | error e =>
                    dsimp only at h
                    simp at h
                  | ok u3 =>
                    dsimp only at h ⊢
                    cases hra : runAssistant remote st2 with
                    | mk r4 log4 =>
                      rw [hra] at h
                      cases r4 with
                      | error e =>
                        dsimp only at h
                        simp at h
                      | ok run =>
                        dsimp only at h ⊢
                        cases hgm : remote.getMessages with
                        | error sx =>
                          rw [hgm] at h
                          dsimp only at h
                          simp at h
                        | ok rm =>
                          rw [hgm] at h
                          dsimp only at h ⊢
                          obtain ⟨hs, runId, m, hm⟩ :=
                            runAssistant_ok remote st2 run log4 hra
                          refine ⟨rm, run, rfl, hs, ⟨runId, m, hm⟩, ?_⟩
                          have hd2 : st2.deploymentName = st.deploymentName := by
                            have ha := (gca_preserves remote st).2.2
                            rw [hgca] at ha
                            have hb := (gct_preserves remote ups st1).2.2
                            rw [hgct] at hb
                            exact hb.trans ha
                          rw [hd2]

/-- Concrete instantiation of `c9_result_fields` on a remote whose run
completes on the first poll. -/
theorem c9_witness :
    (fetchRun remoteOK stUser).result = .ok () ∧
    (∃ rm run,
      remoteOK.getMessages = .ok rm ∧
      run.status = "completed" ∧
      (∃ runId n, remoteOK.pollRun runId n = .ok run) ∧
      (fetchRun remoteOK stUser).state.lastResponse = some
        { id := run.id, object := "chat.completion", created := remoteOK.now,
          model := stUser.deploymentName,
          choices := [{ index := 0,
                        message := { role := roleOf rm, content := contentValueOf rm },
                        finish_reason := "stop" }] }) :=
  ⟨rfl, c9_result_fields remoteOK stUser rfl⟩

/-- As long as every poll comes back non-terminal, the poll loop keeps
going: it performs one status check per remaining attempt and then times
out. -/
theorem waitGo_nonterminal (poll : Nat → Except String RunObj) :
    ∀ fuel att, (∀ n, att ≤ n → n < att + fuel → nonTerminalPoll (poll n) = true) →
      waitGo poll fuel att = (.error "Run timed out after 5 minutes", fuel) := by
  intro fuel
  induction fuel with
  | zero => intro att _; rfl
  | succ f ih =>
    intro att h
    have hatt := h att (Nat.le_refl att) (by omega)
    rw [waitGo]
    cases hp : poll att with
    | error s =>
      rw [hp] at hatt
      simp [nonTerminalPoll] at hatt
    | ok r0 =>
      rw [hp] at hatt
      unfold nonTerminalPoll at hatt
      rw [Bool.and_eq_true] at hatt
      obtain ⟨h1, h2⟩ := hatt
      rw [Bool.not_eq_true'] at h1 h2
      dsimp only
      rw [if_neg (by simp [h1]), if_neg (by simp [h2])]
      rw [ih (att + 1) fun n hn1 hn2 => h n (by omega) (by omega)]

/-- C4: a remote that reports a non-terminal status on every poll makes
the poll loop perform exactly 60 status checks and then fail with the
TimeoutError, whose message differs from every RunError message the loop
raises for the remote failure statuses `failed`, `cancelled`, `expired`. -/
theorem c4_poll_timeout (poll : Nat → Except String RunObj)
    (h : ∀ n, n < 60 → nonTerminalPoll (poll n) = true) :
    waitForRunCompletion poll = (.error "Run timed out after 5 minutes", 60) ∧
    (∀ s m, s = "failed" ∨ s = "cancelled" ∨ s = "expired" →
      ("Run timed out after 5 minutes" : String) ≠ "Run " ++ s ++ ": " ++ m) := by
  constructor
  · unfold waitForRunCompletion
    exact waitGo_nonterminal poll 60 0 fun n _ hn2 => h n (by omega)
  · intro s m hs heq
    rcases hs with rfl | rfl | rfl <;>
      · have h4 := congrArg (fun t => t.data.get? 4) heq
        simp only [String.data_append] at h4
        simp at h4

/-- Concrete instantiation of `c4_poll_timeout` on an always-`in_progress`
remote. -/
theorem c4_witness :
    (∀ n, n < 60 → nonTerminalPoll (c4poll n) = true) ∧
    (waitForRunCompletion c4poll = (.error "Run timed out after 5 minutes", 60) ∧
      (∀ s m, s = "failed" ∨ s = "cancelled" ∨ s = "expired" →
        ("Run timed out after 5 minutes" : String) ≠ "Run " ++ s ++ ": " ++ m)) :=
  ⟨fun _ _ => rfl, c4_poll_timeout c4poll fun _ _ => rfl⟩

/-- A system-role head is filtered out of the thread message build. -/
theorem tmBuild_cons_sys (ups : List UploadedFile) (F k : Nat) (m : Message)
    (l : List (Nat × Message)) (hm : m.role = some "system") :
    tmBuild ups F ((k, m) :: l) = tmBuild ups F l := by
  unfold tmBuild
  rw [List.filter_cons]
  simp [hm]

/-- A non-system head kept away from the first-user position carries no
attachments. -/
theorem tmBuild_cons_skip (ups : List UploadedFile) (F k : Nat) (m : Message)
    (l : List (Nat × Message)) (hm : m.role ≠ some "system") (hk : k ≠ F) :
    tmBuild ups F ((k, m) :: l) =
      { role := m.role, content := m.content, attachments := [] } :: tmBuild ups F l := by
  unfold tmBuild
  rw [List.filter_cons]
  simp [hm, hk]

/-- A user head sitting at the first-user position receives the uploaded
files as attachments (when the batch is non-empty). -/
theorem tmBuild_cons_hit (ups : List UploadedFile) (F k : Nat) (m : Message)
    (l : List (Nat × Message)) (hm : m.role = some "user") (hk : k = F) :
    tmBuild ups F ((k, m) :: l) =
      { role := m.role, content := m.content,
        attachments := if !ups.isEmpty then ups.map fun f => f.id else [] }
        :: tmBuild ups F l := by
  unfold tmBuild
  rw [List.filter_cons]
  subst hk
  have hs : ((fun p : Nat × Message => !(p.2.role == some "system")) (k, m)) = true := by
    dsimp only
    rw [hm]
    rfl
  rw [if_pos hs, List.map_cons]
  have hc : (m.role == some "user" && !ups.isEmpty && k == k) = !ups.isEmpty := by
    rw [hm]
    simp
  rw [hc]

/-- `tmAlt` drops a system head. -/
theorem tmAlt_cons_sys (ups : List UploadedFile) (m : Message) (rest : List Message)
    (seen : Bool) (hm : m.role = some "system") :
    tmAlt ups (m :: rest) seen = tmAlt ups rest seen := by
  rw [tmAlt, if_pos (by simp [hm])]

/-- Past the first user message, `tmAlt` attaches nothing to a non-system
head. -/
theorem tmAlt_cons_seen (ups : List UploadedFile) (m : Message) (rest : List Message)
    (hm : m.role ≠ some "system") :
    tmAlt ups (m :: rest) true =
      { role := m.role, content := m.content, attachments := [] } :: tmAlt ups rest true := by
  rw [tmAlt]
  rw [if_neg (by simp [hm])]
  rw [if_neg (by simp)]

/-- The first user head receives the attachments in `tmAlt`. -/
theorem tmAlt_cons_user_new (ups : List UploadedFile) (m : Message) (rest : List Message)
    (hm : m.role = some "user") :
    tmAlt ups (m :: rest) false =
      { role := m.role, content := m.content,
        attachments := if !ups.isEmpty then ups.map fun f => f.id else [] }
        :: tmAlt ups rest true := by
  rw [tmAlt]
  rw [if_neg (by simp [hm])]
  rw [if_pos (by simp [hm])]

/-- Before the first user message, `tmAlt` attaches nothing to an
assistant-or-other head. -/
theorem tmAlt_cons_other_new (ups : List UploadedFile) (m : Message) (rest : List Message)
    (hms : m.role ≠ some "system") (hmu : m.role ≠ some "user") :
    tmAlt ups (m :: rest) false =
      { role := m.role, content := m.content, attachments := [] } :: tmAlt ups rest false := by
  rw [tmAlt]
  rw [if_neg (by simp [hms])]
  rw [if_neg (by simp [hmu])]

/-- Once the enumeration has moved past the first-user position, the build
attaches nothing: it agrees with `tmAlt` in the already-seen state. -/
theorem tmBuild_past (ups : List UploadedFile) :
    ∀ (msgs : List Message) (k F : Nat), F < k →
      tmBuild ups F (List.enumFrom k msgs) = tmAlt ups msgs true := by
  intro msgs
  induction msgs with
  | nil => intro k F _; rfl
  | cons m rest ih =>
    intro k F hF
    rw [show List.enumFrom k (m :: rest) = (k, m) :: List.enumFrom (k + 1) rest from rfl]
    by_cases hm : m.role = some "system"
    · rw [tmBuild_cons_sys ups F k m _ hm, tmAlt_cons_sys ups m rest true hm]
      exact ih (k + 1) F (by omega)
    · rw [tmBuild_cons_skip ups F k m _ hm (by omega), tmAlt_cons_seen ups m rest hm]
      rw [ih (k + 1) F (by omega)]

/-- Starting at the first-user position computed from the remaining
messages, the build agrees with `tmAlt` in the not-yet-seen state. -/
theorem tmBuild_first (ups : List UploadedFile) :
    ∀ (msgs : List Message) (k : Nat),
      tmBuild ups (k + msgs.findIdx fun m => m.role == some "user")
        (List.enumFrom k msgs) = tmAlt ups msgs false := by
  intro msgs
  induction msgs with
  | nil => intro k; rfl
  | cons m rest ih =>
    intro k
    rw [show List.enumFrom k (m :: rest) = (k, m) :: List.enumFrom (k + 1) rest from rfl]
    by_cases hu : m.role = some "user"
    · have hidx : ((m :: rest).findIdx fun m => m.role == some "user") = 0 := by
        simp [List.findIdx_cons, hu]
      rw [hidx, Nat.add_zero, tmBuild_cons_hit ups k k m _ hu rfl,
        tmAlt_cons_user_new ups m rest hu]
      rw [tmBuild_past ups rest (k + 1) k (by omega)]
    · have hidx : ((m :: rest).findIdx fun m => m.role == some "user") =
          (rest.findIdx fun m => m.role == some "user") + 1 := by
        simp [List.findIdx_cons, beq_eq_false_iff_ne.mpr hu]
      rw [hidx]
      by_cases hm : m.role = some "system"
      · rw [tmBuild_cons_sys ups _ k m _ hm, tmAlt_cons_sys ups m rest false hm]
        rw [show k + ((rest.findIdx fun m => m.role == some "user") + 1) =
          (k + 1) + (rest.findIdx fun m => m.role == some "user") from by omega]
        exact ih (k + 1)
      · rw [tmBuild_cons_skip ups _ k m _ hm (by omega),
          tmAlt_cons_other_new ups m rest hm hu]
        rw [show k + ((rest.findIdx fun m => m.role == some "user") + 1) =
          (k + 1) + (rest.findIdx fun m => m.role == some "user") from by omega]
        rw [ih (k + 1)]

/-- Stripped of attachments, `tmAlt` is exactly the stored message list
with system-role messages filtered out, in order. -/
theorem tmAlt_map (ups : List UploadedFile) :
    ∀ (msgs : List Message) (seen : Bool),
      ((tmAlt ups msgs seen).map fun t => (t.role, t.content)) =
        ((msgs.filter fun m => !(m.role == some "system")).map fun m => (m.role, m.content)) := by
  intro msgs
  induction msgs with
  | nil => intro seen; rfl
  | cons m rest ih =>
    intro seen
    rw [List.filter_cons]
    by_cases hm : m.role = some "system"
    · rw [tmAlt_cons_sys ups m rest seen hm]
      rw [if_neg (by simp [hm])]
      exact ih seen
    · rw [if_pos (by simp [hm]), List.map_cons]
      cases seen with
      | true =>
        rw [tmAlt_cons_seen ups m rest hm, List.map_cons, ih true]
      | false =>
        by_cases hu : m.role = some "user"
        · rw [tmAlt_cons_user_new ups m rest hu, List.map_cons, ih true]
        · rw [tmAlt_cons_other_new ups m rest hm hu, List.map_cons, ih false]

/-- After the first user message has been passed, `tmAlt` attaches nothing
anywhere. -/
theorem tmAlt_true_att (ups : List UploadedFile) :
    ∀ msgs : List Message, ∀ t ∈ tmAlt ups msgs true, t.attachments = [] := by
  intro msgs
  induction msgs with
  | nil => intro t ht; simp [tmAlt] at ht
  | cons m rest ih =>
    intro t ht
    by_cases hm : m.role = some "system"
    · rw [tmAlt_cons_sys ups m rest true hm] at ht
      exact ih t ht
    · rw [tmAlt_cons_seen ups m rest hm] at ht
      rcases List.mem_cons.mp ht with rfl | ht
      · rfl
      · exact ih t ht

/-- With a non-empty batch, `tmAlt` in the not-yet-seen state splits into
a user-free attachment-free leading part, then — when a user message
exists at all — a user-role message carrying all uploaded-file references
followed by attachment-free messages. -/
theorem tmAlt_false_decomp (ups : List UploadedFile) (hne : ups.isEmpty = false) :
    ∀ msgs : List Message,
      ∃ A B, tmAlt ups msgs false = A ++ B ∧
        (∀ t ∈ A, t.role ≠ some "user" ∧ t.attachments = []) ∧
        (B = [] ∨ ∃ t0 B', B = t0 :: B' ∧ t0.role = some "user" ∧
          t0.attachments = (ups.map fun f => f.id) ∧ ∀ t ∈ B', t.attachments = []) := by
  intro msgs
  induction msgs with
  | nil => exact ⟨[], [], rfl, by simp, Or.inl rfl⟩
  | cons m rest ih =>
    by_cases hm : m.role = some "system"
    · rw [tmAlt_cons_sys ups m rest false hm]
      exact ih
    · by_cases hu : m.role = some "user"
      · rw [tmAlt_cons_user_new ups m rest hu]
        refine ⟨[], _, rfl, by simp, Or.inr ⟨_, _, rfl, hu, ?_, tmAlt_true_att ups rest⟩⟩
        simp [hne]
      · rw [tmAlt_cons_other_new ups m rest hm hu]
        obtain ⟨A, B, hAB, hA, hB⟩ := ih
        refine ⟨{ role := m.role, content := m.content, attachments := [] } :: A, B,
          by rw [hAB, List.cons_append], ?_, hB⟩
        intro t ht
        rcases List.mem_cons.mp ht with rfl | ht
        · exact ⟨hu, rfl⟩
        · exact hA t ht

/-- C5: the thread-creation message list equals the stored messages with
every system-role message removed, in order, and — when the uploaded-file
batch is non-empty — the uploaded-file references are attached to exactly
the first user-role message and to no other message (no attachments at all
when no user message exists). -/
theorem c5_thread_message_list (msgs : List Message) (ups : List UploadedFile)
    (hne : ups ≠ []) :
    ((threadMessages msgs ups).map fun t => (t.role, t.content)) =
      ((msgs.filter fun m => !(m.role == some "system")).map fun m => (m.role, m.content)) ∧
    ∃ A B, threadMessages msgs ups = A ++ B ∧
      (∀ t ∈ A, t.role ≠ some "user" ∧ t.attachments = []) ∧
      (B = [] ∨ ∃ t0 B', B = t0 :: B' ∧ t0.role = some "user" ∧
        t0.attachments = (ups.map fun f => f.id) ∧ ∀ t ∈ B', t.attachments = []) := by
  have hne' : ups.isEmpty = false := by
    cases ups with
    | nil => exact absurd rfl hne
    | cons a l => rfl
  have heq : threadMessages msgs ups = tmAlt ups msgs false := by
    have h0 : threadMessages msgs ups =
        tmBuild ups (msgs.findIdx fun m => m.role == some "user")
          (List.enumFrom 0 msgs) := rfl
    rw [h0, show (msgs.findIdx fun m => m.role == some "user") =
      0 + (msgs.findIdx fun m => m.role == some "user") from (Nat.zero_add _).symm]
    exact tmBuild_first ups msgs 0
  rw [heq]
  exact ⟨tmAlt_map ups msgs false, tmAlt_false_decomp ups hne' msgs⟩

/-- Concrete instantiation of `c5_thread_message_list` on a four-message
conversation with a two-file batch. -/
theorem c5_witness :
    c5ups ≠ [] ∧
    (((threadMessages c5msgs c5ups).map fun t => (t.role, t.content)) =
        ((c5msgs.filter fun m => !(m.role == some "system")).map fun m => (m.role, m.content)) ∧
      ∃ A B, threadMessages c5msgs c5ups = A ++ B ∧
        (∀ t ∈ A, t.role ≠ some "user" ∧ t.attachments = []) ∧
        (B = [] ∨ ∃ t0 B', B = t0 :: B' ∧ t0.role = some "user" ∧
          t0.attachments = (c5ups.map fun f => f.id) ∧ ∀ t ∈ B', t.attachments = [])) :=
  ⟨by simp [c5ups], c5_thread_message_list c5msgs c5ups (by simp [c5ups])⟩
